import Mathlib

set_option maxRecDepth 8000

/-!
Shallow embedding of the extraction-and-ranking core of the dd_log repository
(file utils/dd_utils.py): the record extractor DD373Product.from_html_element,
the eligibility filter FilterParams.apply, the ranking step
_filter_valid_offer_item and the selector get_dd_min_price.

HTML fragments are modelled as the abstract view the code observes through its
CSS selector queries: one field per select_one/select call.  Python floats are
modelled as rationals; Python float() is modelled on decimal numeric literals
(optional sign, digits, optional fraction, optional exponent) - special forms
(inf/nan, underscore separators) are outside the modelled input domain.
A raised exception is modelled as Option.none in the functions that can raise.

The string primitives the code uses (split, replace, strip, substring test)
are implemented here by structural recursion over character lists, so that
every definition evaluates inside the kernel; each is a direct model of the
corresponding Python string method.
-/

/-- Python str.strip with no argument: remove leading and trailing whitespace. -/
def pystrip (s : String) : String :=
  String.mk (((s.data.dropWhile Char.isWhitespace).reverse.dropWhile Char.isWhitespace).reverse)

/-- Numeric value of a list of decimal digit characters, as Python int() computes it. -/
def digitsToNat (ds : List Char) : Nat :=
  ds.foldl (fun n c => 10 * n + (c.toNat - '0'.toNat)) 0

/-- Python str.isdigit restricted to ASCII digits: nonempty and all digits. -/
def pyIsDigit (s : String) : Bool :=
  !s.data.isEmpty && s.data.all Char.isDigit

/-- Python int() applied to a string that passed pyIsDigit. -/
def pyInt (s : String) : Nat := digitsToNat s.data

/-- Whether the first list is a prefix of the second. -/
def isPrefixList : List Char → List Char → Bool
  | [], _ => true
  | _ :: _, [] => false
  | a :: as, b :: bs => a = b && isPrefixList as bs

/-- Python str.split on a nonempty separator, by structural recursion on a
fuel bound: at the leftmost separator occurrence, cut and continue after it;
fuel equal to the list length always suffices since every step consumes at
least one character. -/
def splitFuel (sep : List Char) : Nat → List Char → List (List Char)
  | 0, cs => [cs]
  | _ + 1, [] => [[]]
  | n + 1, c :: rest =>
    if isPrefixList sep (c :: rest) then
      [] :: splitFuel sep n (rest.drop (sep.length - 1))
    else
      match splitFuel sep n rest with
      | h :: t => (c :: h) :: t
      | [] => [[c]]

/-- Python str.split for a nonempty separator string. -/
def pySplit (sep s : String) : List String :=
  (splitFuel sep.data s.data.length s.data).map String.mk

/-- Join character lists with a separator list. -/
def joinWith (sep : List Char) : List (List Char) → List Char
  | [] => []
  | [x] => x
  | x :: y :: t => x ++ sep ++ joinWith sep (y :: t)

/-- Python str.replace for a nonempty pattern: every occurrence is replaced. -/
def pyReplace (s pat repl : String) : String :=
  String.mk (joinWith repl.data (splitFuel pat.data s.data.length s.data))

/-- Python str.join over a list of strings. -/
def intercalateStr (sep : String) (l : List String) : String :=
  String.mk (joinWith sep.data (l.map String.data))

/-- Python membership test of a character in a string. -/
def containsChar (s : String) (c : Char) : Bool :=
  s.data.contains c

/-- Python str.startswith. -/
def startsWithStr (s pre : String) : Bool :=
  isPrefixList pre.data s.data

/-- Python substring membership test (the in operator) for a nonempty needle:
the string splits into more than one part. -/
def containsSub (needle hay : String) : Bool :=
  decide (1 < (pySplit needle hay).length)

/-- The syntactic content of a decimal float literal: sign, integer-part
value, fraction-digits value and count, exponent sign and value. -/
structure FloatParts where
  neg : Bool
  ip : Nat
  fp : Nat
  fpLen : Nat
  eneg : Bool
  ev : Nat
deriving Repr, DecidableEq

/-- Numeric value of parsed float parts. -/
def floatPartsVal (p : FloatParts) : ℚ :=
  let mant : ℚ := (p.ip : ℚ) + (p.fp : ℚ) / (10 : ℚ) ^ p.fpLen
  let scaled : ℚ := if p.eneg then mant / (10 : ℚ) ^ p.ev else mant * (10 : ℚ) ^ p.ev
  if p.neg then -scaled else scaled

/-- Optional exponent suffix of a float literal: accept the empty remainder,
or an e/E followed by an optional sign and one or more digits and nothing
else; fail on anything else, as Python float() fails. -/
def parseExpPart (neg : Bool) (ip fp fpLen : Nat) (cs : List Char) : Option FloatParts :=
  match cs with
  | [] => some ⟨neg, ip, fp, fpLen, false, 0⟩
  | c :: rest =>
    if c = 'e' ∨ c = 'E' then
      let signRest : Bool × List Char :=
        match rest with
        | '+' :: r => (false, r)
        | '-' :: r => (true, r)
        | r => (false, r)
      let ed := signRest.2.takeWhile Char.isDigit
      let rest2 := signRest.2.dropWhile Char.isDigit
      if ed.isEmpty then none
      else if !rest2.isEmpty then none
      else some ⟨neg, ip, fp, fpLen, signRest.1, digitsToNat ed⟩
    else none

/-- Decimal float literal over a character list: optional sign, then either
digits with an optional fractional part or a fractional part alone, then an
optional exponent. -/
def parseFloatAux (cs : List Char) : Option FloatParts :=
  let signRest : Bool × List Char :=
    match cs with
    | '+' :: r => (false, r)
    | '-' :: r => (true, r)
    | r => (false, r)
  let ip := signRest.2.takeWhile Char.isDigit
  let cs2 := signRest.2.dropWhile Char.isDigit
  match cs2 with
  | '.' :: cs3 =>
    let fpd := cs3.takeWhile Char.isDigit
    let cs4 := cs3.dropWhile Char.isDigit
    if ip.isEmpty && fpd.isEmpty then none
    else parseExpPart signRest.1 (digitsToNat ip) (digitsToNat fpd) fpd.length cs4
  | _ =>
    if ip.isEmpty then none
    else parseExpPart signRest.1 (digitsToNat ip) 0 0 cs2

/-- Python float() on a string: strip whitespace, parse a decimal literal,
return its numeric value; none models the ValueError on a malformed string. -/
def parseFloat (s : String) : Option ℚ :=
  (parseFloatAux (pystrip s).data).map floatPartsVal

/-- First maximal run of decimal digits in a character list, as
re.search of one-or-more digits finds it; none when the list has no digit. -/
def firstDigitRun : List Char → Option Nat
  | [] => none
  | c :: rest =>
    if c.isDigit then some (digitsToNat ((c :: rest).takeWhile Char.isDigit))
    else firstDigitRun rest

/-- Attempt to match, at the head of the list, the stock regex of
from_html_element: the two characters of the stock label, optional whitespace,
a full- or half-width colon, optional whitespace, then one or more digits;
returns the digit group's value. -/
def stockAt (cs : List Char) : Option Nat :=
  match cs with
  | '库' :: '存' :: rest =>
    let rest1 := rest.dropWhile Char.isWhitespace
    match rest1 with
    | c :: rest2 =>
      if c = ':' ∨ c = '：' then
        let rest3 := rest2.dropWhile Char.isWhitespace
        let ds := rest3.takeWhile Char.isDigit
        if ds.isEmpty then none else some (digitsToNat ds)
      else none
    | [] => none
  | _ => none

/-- Leftmost match of the stock regex in a character list: re.search semantics
for the pattern of from_html_element, step 4. -/
def findStock : List Char → Option Nat
  | [] => none
  | c :: rest =>
    match stockAt (c :: rest) with
    | some n => some n
    | none => findStock rest

/-- The title link element (.goods-list-title selector): its text content and
the value of its href attribute as .get of href with default empty string. -/
structure TitleElem where
  text : String
  href : String
deriving Repr, DecidableEq

/-- The reputation container (.game-reputation selector): its full text, the
text of its .bold descendant when present, and the counts of the three icon
classes i.icon-heart, i.icon-bluediamond and i.icon-crown. -/
structure ReputationDiv where
  text : String
  bold : Option String
  hearts : Nat
  diamonds : Nat
  crowns : Nat
deriving Repr, DecidableEq

/-- Abstract view of one listing fragment: one field per selector query made by
DD373Product.from_html_element; none models a select_one miss. -/
structure Fragment where
  goods_list_title : Option TitleElem
  game_qufu_attr : Option (List String)
  goods_price : Option String
  game_reputation : Option ReputationDiv
  kucun_span : Option String
  kucun_ps : Option (List String)
  width233_ps : Option (List String)
  im_buy_btn : Option String
deriving Repr, DecidableEq

/-- The DD373Product dataclass.  price is modelled as a rational, stock and
credit_rating as naturals (the code only ever assigns nonnegative values). -/
structure DD373Product where
  title : String
  url : String
  product_id : String
  server_info : String
  price : ℚ
  stock : Nat
  exchange_rate_1 : String
  exchange_rate_2 : String
  credit_rating : Nat
  purchase_url : String
deriving Repr, DecidableEq

/-- The dataclass defaults of DD373Product, as cls() builds them. -/
def DD373Product.mkDefault : DD373Product :=
  { title := "", url := "", product_id := "", server_info := "", price := 0,
    stock := 0, exchange_rate_1 := "", exchange_rate_2 := "",
    credit_rating := 0, purchase_url := "" }

/-- Step 1 of from_html_element: the stripped text of the title element. -/
def extractTitle (item : Fragment) : String :=
  match item.goods_list_title with
  | some t => pystrip t.text
  | none => ""

/-- Step 1 of from_html_element: the raw href of the title element. -/
def extractHref (item : Fragment) : String :=
  match item.goods_list_title with
  | some t => t.href
  | none => ""

/-- Step 1 of from_html_element: a nonempty href starting with a slash is
prefixed with the domain. -/
def extractUrl (item : Fragment) (domain : String) : String :=
  let href := extractHref item
  if !href.data.isEmpty && startsWithStr href "/" then domain ++ href else href

/-- Step 1 of from_html_element: the product id is the text between the first
detail marker and the first subsequent .html in the resolved href. -/
def extractProductId (item : Fragment) (domain : String) : String :=
  let href := extractUrl item domain
  if containsSub "/detail-" href then
    (pySplit ".html" ((pySplit "/detail-" href).getD 1 "")).headD ""
  else ""

/-- Step 2 of from_html_element: stripped texts of the server links joined
with a slash; empty when the container is absent. -/
def extractServer (item : Fragment) : String :=
  match item.game_qufu_attr with
  | some links => intercalateStr "/" (links.map pystrip)
  | none => ""

/-- Step 3 of from_html_element: keep only digits and periods from the price
text and parse as a float; 0.0 on a parse failure or an absent element. -/
def parsePrice (txt : String) : ℚ :=
  match parseFloat (String.mk (txt.data.filter (fun c => c.isDigit || c = '.'))) with
  | some v => v
  | none => 0

/-- Raw scraped price of a fragment, before quantity normalization. -/
def rawPrice (item : Fragment) : ℚ :=
  match item.goods_price with
  | some txt => parsePrice txt
  | none => 0

/-- Step 4 of from_html_element within the reputation container: the labeled
stock regex first, then the .bold fallback; 0 when both fail or the container
is absent. -/
def stockFromReputation (item : Fragment) : Nat :=
  match item.game_reputation with
  | some rep =>
    match findStock rep.text.data with
    | some n => n
    | none =>
      match rep.bold with
      | some b => if pyIsDigit (pystrip b) then pyInt (pystrip b) else 0
      | none => 0
  | none => 0

/-- Step 4 of from_html_element, complete: when the stock is still 0 after the
reputation container, the legacy .kucun span element is consulted. -/
def resolveStock (item : Fragment) : Nat :=
  let s := stockFromReputation item
  if s = 0 then
    match item.kucun_span with
    | some t => if pyIsDigit (pystrip t) then pyInt (pystrip t) else s
    | none => s
  else s

/-- Step 5 of from_html_element: the two exchange-rate strings, from the first
two paragraphs of the .kucun container, falling back to the legacy .width233
container only when the .kucun container has no paragraphs at all. -/
def resolveRates (item : Fragment) : String × String :=
  match item.kucun_ps with
  | some ps =>
    if 2 ≤ ps.length then (pystrip (ps.headD ""), pystrip (ps.getD 1 ""))
    else if ps.isEmpty then
      match item.width233_ps with
      | some ps2 =>
        if 2 ≤ ps2.length then (pystrip (ps2.headD ""), pystrip (ps2.getD 1 ""))
        else ("", "")
      | none => ("", "")
    else ("", "")
  | none => ("", "")

/-- Step 6 of from_html_element: the credit rating from icon counts, hearts
first, then diamonds, then crowns; 0 when no icon is found or the container is
absent. -/
def resolveCredit (item : Fragment) : Nat :=
  match item.game_reputation with
  | some rep =>
    if 0 < rep.hearts then rep.hearts
    else if 0 < rep.diamonds then 5 + rep.diamonds
    else if 0 < rep.crowns then 10 + rep.crowns
    else 0
  | none => 0

/-- Step 7 of from_html_element: a nonempty buy-button href not starting with
http gets the https scheme prepended; empty when the button is absent. -/
def resolvePurchase (item : Fragment) : String :=
  match item.im_buy_btn with
  | some h => if !h.data.isEmpty && !startsWithStr h "http" then "https:" ++ h else h
  | none => ""

/-- Step 8 of from_html_element: the bundle quantity read from the title - for
a nonempty title containing an equals sign, the first digit run before the
first equals sign, defaulting to 1 when that part has no digit; 1 otherwise. -/
def bundleQuantity (title : String) : Nat :=
  if !title.data.isEmpty && containsChar title '=' then
    match firstDigitRun ((pySplit "=" title).headD "").data with
    | some n => n
    | none => 1
  else 1

/-- Step 8 of from_html_element applied to the stock: the scraped stock is
multiplied by the quantity exactly when the title matched a digit run before
the equals sign. -/
def finalStock (item : Fragment) : Nat :=
  let title := extractTitle item
  if !title.data.isEmpty && containsChar title '=' then
    match firstDigitRun ((pySplit "=" title).headD "").data with
    | some n => n * resolveStock item
    | none => resolveStock item
  else resolveStock item

/-- Step 8 of from_html_element applied to the price: the scraped price is
divided by the quantity when the quantity is positive, else left unchanged. -/
def finalPrice (item : Fragment) : ℚ :=
  let q := bundleQuantity (extractTitle item)
  if 0 < q then rawPrice item / (q : ℚ) else rawPrice item

/-- DD373Product.from_html_element: builds the product record from the
fragment view, one helper per numbered step of the source. -/
def from_html_element (item : Fragment) (domain : String) : DD373Product :=
  { title := extractTitle item
    url := extractUrl item domain
    product_id := extractProductId item domain
    server_info := extractServer item
    price := finalPrice item
    stock := finalStock item
    exchange_rate_1 := (resolveRates item).1
    exchange_rate_2 := (resolveRates item).2
    credit_rating := resolveCredit item
    purchase_url := resolvePurchase item }

/-- The FilterParams object: both thresholds are integers in the program but
the code guards each against None, so they are modelled as optional. -/
structure FilterParams where
  stock_min : Option Int
  level_min : Option Int
deriving Repr, DecidableEq

/-- One guard of FilterParams.apply: true when the threshold is present and
the value is strictly below it. -/
def belowSome (threshold : Option Int) (v : Int) : Bool :=
  match threshold with
  | some t => decide (v < t)
  | none => false

/-- FilterParams.apply: false when the credit rating is below the level
threshold or the stock is below the stock threshold, true otherwise. -/
def FilterParams.apply (fp : FilterParams) (product : DD373Product) : Bool :=
  if belowSome fp.level_min (product.credit_rating : Int) then false
  else if belowSome fp.stock_min (product.stock : Int) then false
  else true

/-- The guard of the sort-key lambda of _filter_valid_offer_item: the
exchange-rate string contains an equals sign and splits into more than one
part (the two tests always agree). -/
def hasEq (s : String) : Bool :=
  containsChar s '=' && decide (1 < (pySplit "=" s).length)

/-- The float() argument of the sort-key lambda: the text after the first
equals sign, with every currency-unit character removed, stripped. -/
def parseAfterEq (s : String) : Option ℚ :=
  parseFloat (pystrip (pyReplace ((pySplit "=" s).getD 1 "") "元" ""))

/-- The sort-key computation of _filter_valid_offer_item on one
exchange_rate_2 string: float() of the cleaned text after the first equals
sign when the guard holds - none models the ValueError float() raises on a
non-numeric remainder - and positive infinity (top) when there is no equals
sign. -/
def ratekey (s : String) : Option (WithTop ℚ) :=
  if hasEq s then
    match parseAfterEq s with
    | some v => some (v : WithTop ℚ)
    | none => none
  else some ⊤

/-- The sort key of a product, with an arbitrary default on the raising case;
the sort is only ever reached when every key computed without raising. -/
def keyD (p : DD373Product) : WithTop ℚ :=
  (ratekey p.exchange_rate_2).getD ⊤

/-- Ordering used by the ranking sort: ascending in the sort key. -/
def sortRel (a b : DD373Product) : Prop := keyD a ≤ keyD b

instance : DecidableRel sortRel :=
  fun a b => inferInstanceAs (Decidable (keyD a ≤ keyD b))

instance : IsTotal DD373Product sortRel :=
  ⟨fun a b => le_total (keyD a) (keyD b)⟩

instance : IsTrans DD373Product sortRel :=
  ⟨fun _ _ _ hab hbc => le_trans hab hbc⟩

/-- _filter_valid_offer_item: compute every sort key (any ValueError aborts
the call, modelled as none), sort ascending by key - insertion sort inserting
each element before the first later element of greater-or-equal key is stable,
matching the stable ascending sort of Python - then keep the offers the
filter accepts, in order.  The deep copy of the input list has no observable
counterpart on immutable values. -/
def filter_valid_offer_item (listOffers : List DD373Product) (filterParams : FilterParams) :
    Option (List DD373Product) :=
  match listOffers.mapM (fun x => ratekey x.exchange_rate_2) with
  | none => none
  | some _ =>
    let sorted_offers := listOffers.insertionSort sortRel
    some (sorted_offers.filter (fun offer => filterParams.apply offer))

/-- Python min over a nonempty list with a key function: fold keeping the
current minimum, replacing it only on a strictly smaller key, so the first
minimum wins. -/
def pyminBy (f : DD373Product → ℚ) (x : DD373Product) (xs : List DD373Product) : DD373Product :=
  xs.foldl (fun best y => if f y < f best then y else best) x

/-- The selection logic of get_dd_min_price, given the list of scraped
products (the scraping itself is outside the modelled core): none models a
raised exception, some none the no-eligible-offer result, and some (some r)
the (price, title, stock) triple of the winner. -/
def get_dd_min_price (list_offers : List DD373Product) (filterParams : FilterParams) :
    Option (Option (ℚ × String × Nat)) :=
  match filter_valid_offer_item list_offers filterParams with
  | none => none
  | some filter_list =>
    match filter_list with
    | [] => some none
    | x :: xs =>
      let m := pyminBy (fun product => product.price) x xs
      some (some (m.price, m.title, m.stock))

/-- Fragment whose title carries a zero bundle quantity and whose price text
is plain. -/
def fragQuantityZero : Fragment :=
  ⟨some ⟨"0克=1元", ""⟩, none, some "10", none, none, none, none, none⟩

/-- Fragment whose title carries bundle quantity 2. -/
def fragQuantityTwo : Fragment :=
  ⟨some ⟨"2个=装备", ""⟩, none, some "10", none, none, none, none, none⟩

/-- Fragment whose reputation text matches the stock regex with value 0 while
the legacy stock element reads 7. -/
def fragStockOverride : Fragment :=
  ⟨none, none, none, some ⟨"库存:0", none, 0, 0, 0⟩, some "7", none, none, none⟩

/-- Fragment whose reputation text matches the stock regex with value 5. -/
def fragStockLabel : Fragment :=
  ⟨none, none, none, some ⟨"库存： 5", none, 0, 0, 0⟩, none, none, none, none⟩

/-- Fragment carrying three heart icons and two diamond icons. -/
def fragHeartsDiamonds : Fragment :=
  ⟨none, none, none, some ⟨"", none, 3, 2, 0⟩, none, none, none, none⟩

/-- Fragment with a reputation container but no reputation icons at all. -/
def fragNoIcons : Fragment :=
  ⟨none, none, none, some ⟨"", none, 0, 0, 0⟩, none, none, none, none⟩

/-- Fragment whose buy button has a site-relative href. -/
def fragBuyBtn : Fragment :=
  ⟨none, none, none, none, none, none, none, some "/order"⟩

/-- A default product: empty rate strings, zero stock and rating. -/
def prodPass : DD373Product := DD373Product.mkDefault

/-- A product whose sell-rate string has an equals sign followed by
non-numeric text, so its sort key computation raises. -/
def prodBadRate : DD373Product :=
  { DD373Product.mkDefault with exchange_rate_2 := "1=abc元" }

/-- Filter parameters accepting everything. -/
def fpZero : FilterParams := ⟨some 0, some 0⟩

/-- Filter parameters requiring stock at least 1. -/
def fpStock1 : FilterParams := ⟨some 1, some 0⟩

theorem from_html_stock (item : Fragment) (domain : String) :
    (from_html_element item domain).stock = finalStock item := rfl

theorem from_html_price (item : Fragment) (domain : String) :
    (from_html_element item domain).price = finalPrice item := rfl

theorem from_html_credit (item : Fragment) (domain : String) :
    (from_html_element item domain).credit_rating = resolveCredit item := rfl

theorem from_html_purchase (item : Fragment) (domain : String) :
    (from_html_element item domain).purchase_url = resolvePurchase item := rfl

/-- The branching stock update of step 8 equals multiplication by the bundle
quantity in every case. -/
theorem finalStock_eq (item : Fragment) :
    finalStock item = bundleQuantity (extractTitle item) * resolveStock item := by
  simp only [finalStock, bundleQuantity]
  split
  · split
    · rfl
    · exact (one_mul _).symm
  · exact (one_mul _).symm

/-- Value of resolveCredit when the reputation container is present. -/
theorem resolveCredit_some (item : Fragment) (rep : ReputationDiv)
    (hrep : item.game_reputation = some rep) :
    resolveCredit item =
      (if 0 < rep.hearts then rep.hearts
       else if 0 < rep.diamonds then 5 + rep.diamonds
       else if 0 < rep.crowns then 10 + rep.crowns
       else 0) := by
  unfold resolveCredit
  rw [hrep]

/-- Value of resolveCredit when the reputation container is absent. -/
theorem resolveCredit_none (item : Fragment) (hrep : item.game_reputation = none) :
    resolveCredit item = 0 := by
  unfold resolveCredit
  rw [hrep]

/-- Claim C4: for every record and criteria with both thresholds present, the
filter accepts exactly when credit_rating is at least level_min and stock is
at least stock_min, both inclusive; zero thresholds accept every record. -/
theorem C4_filter_eligibility (p : DD373Product) (l s : Int) :
    (FilterParams.apply ⟨some s, some l⟩ p = true ↔
      l ≤ (p.credit_rating : Int) ∧ s ≤ (p.stock : Int)) ∧
    FilterParams.apply ⟨some 0, some 0⟩ p = true := by
  constructor
  · by_cases hl : (p.credit_rating : Int) < l
    · simp only [FilterParams.apply, belowSome, hl, decide_True, if_true]
      constructor
      · intro hfalse
        exact absurd hfalse (by decide)
      · intro hand
        omega
    · by_cases hs : (p.stock : Int) < s
      · simp only [FilterParams.apply, belowSome, hl, hs, decide_True, decide_False,
          if_false, if_true]
        constructor
        · intro hfalse
          exact absurd hfalse (by decide)
        · intro hand
          omega
      · simp only [FilterParams.apply, belowSome, hl, hs, decide_False, if_false]
        constructor
        · intro _
          omega
        · intro _
          rfl
  · have h1 : ¬((p.credit_rating : Int) < 0) := by omega
    have h2 : ¬((p.stock : Int) < 0) := by omega
    simp only [FilterParams.apply, belowSome, h1, h2, decide_False, if_false]
    rfl

/-- Claim C5: for every fragment with a reputation container, a positive
heart count gives rating equal to the heart count (within 1 to 5 when the
count is at most 5, so never a diamonds-range value); with no hearts, a
positive diamond count gives 5 plus the diamond count; with no hearts and no
diamonds, a positive crown count gives 10 plus the crown count. -/
theorem C5_credit_tier_priority (item : Fragment) (domain : String) (rep : ReputationDiv)
    (hrep : item.game_reputation = some rep) :
    (0 < rep.hearts → (from_html_element item domain).credit_rating = rep.hearts) ∧
    (0 < rep.hearts → rep.hearts ≤ 5 →
      1 ≤ (from_html_element item domain).credit_rating ∧
        (from_html_element item domain).credit_rating ≤ 5) ∧
    (rep.hearts = 0 → 0 < rep.diamonds →
      (from_html_element item domain).credit_rating = 5 + rep.diamonds) ∧
    (rep.hearts = 0 → rep.diamonds = 0 → 0 < rep.crowns →
      (from_html_element item domain).credit_rating = 10 + rep.crowns) := by
  rw [from_html_credit, resolveCredit_some item rep hrep]
  refine ⟨fun h1 => ?_, fun h1 h5 => ?_, fun h1 h2 => ?_, fun h1 h2 h3 => ?_⟩
  · rw [if_pos h1]
  · rw [if_pos h1]; omega
  · rw [if_neg (by omega), if_pos h2]
  · rw [if_neg (by omega), if_neg (by omega), if_pos h3]

/-- Witness for C5 at a fragment carrying both hearts and diamonds: the
rating is the heart count 3, not a diamonds-range value. -/
theorem C5_witness :
    (from_html_element fragHeartsDiamonds "https://www.dd373.com").credit_rating = 3 :=
  (C5_credit_tier_priority fragHeartsDiamonds "https://www.dd373.com"
    ⟨"", none, 3, 2, 0⟩ rfl).1 (by decide)

/-- Claim C10: for every fragment whose buy button has a nonempty href not
starting with http, the purchase url is the href with the https scheme
prefix prepended - site-relative paths included. -/
theorem C10_purchase_url_normalization (item : Fragment) (domain h : String)
    (hbtn : item.im_buy_btn = some h) (hne : h.data ≠ [])
    (hhttp : startsWithStr h "http" = false) :
    (from_html_element item domain).purchase_url = "https:" ++ h := by
  rw [from_html_purchase]
  unfold resolvePurchase
  rw [hbtn]
  have hne' : h.data.isEmpty = false := by
    cases hd : h.data with
    | nil => exact absurd hd hne
    | cons a l => rfl
  simp [hne', hhttp]

/-- Witness for C10 at a site-relative href: the slash path is prefixed,
giving a scheme with a single slash. -/
theorem C10_witness :
    (from_html_element fragBuyBtn "https://www.dd373.com").purchase_url = "https:/order" :=
  C10_purchase_url_normalization fragBuyBtn "https://www.dd373.com" "/order"
    rfl (by decide) (by decide)

/-- Counterexample to C8 as stated: a fragment with a reputation container
but no icons gets credit rating 0, outside the claimed range 1 to 15. -/
theorem C8_counterexample :
    (from_html_element fragNoIcons "https://www.dd373.com").credit_rating = 0 ∧
    ¬(1 ≤ (from_html_element fragNoIcons "https://www.dd373.com").credit_rating ∧
      (from_html_element fragNoIcons "https://www.dd373.com").credit_rating ≤ 15) := by
  refine ⟨rfl, ?_⟩
  intro hand
  have h0 : (from_html_element fragNoIcons "https://www.dd373.com").credit_rating = 0 := rfl
  omega

/-- Claim C8 amended: with at most 5 icons per tier, the extracted credit
rating is either 0 (no icons counted, or no reputation container) or in the
range 1 to 15. -/
theorem C8_credit_rating_range_amended (item : Fragment) (domain : String) :
    (∀ rep, item.game_reputation = some rep →
      rep.hearts ≤ 5 → rep.diamonds ≤ 5 → rep.crowns ≤ 5 →
      (from_html_element item domain).credit_rating = 0 ∨
        (1 ≤ (from_html_element item domain).credit_rating ∧
          (from_html_element item domain).credit_rating ≤ 15)) ∧
    (item.game_reputation = none → (from_html_element item domain).credit_rating = 0) := by
  constructor
  · intro rep hrep h5 hd5 hc5
    rw [from_html_credit, resolveCredit_some item rep hrep]
    split_ifs <;> omega
  · intro hnone
    rw [from_html_credit, resolveCredit_none item hnone]

/-- Witness for C8 amended: a fragment with 3 hearts lands in the range. -/
theorem C8_witness :
    (from_html_element fragHeartsDiamonds "https://www.dd373.com").credit_rating = 0 ∨
      (1 ≤ (from_html_element fragHeartsDiamonds "https://www.dd373.com").credit_rating ∧
        (from_html_element fragHeartsDiamonds "https://www.dd373.com").credit_rating ≤ 15) :=
  (C8_credit_rating_range_amended fragHeartsDiamonds "https://www.dd373.com").1
    ⟨"", none, 3, 2, 0⟩ rfl (by decide) (by decide) (by decide)

/-- Counterexample to C6 as stated: in this fragment the labeled stock regex
matches successfully with value 0, yet the legacy element overrides it with 7,
so a later fallback does override an earlier successful match. -/
theorem C6_counterexample :
    findStock "库存:0".data = some 0 ∧
    (from_html_element fragStockOverride "https://www.dd373.com").stock = 7 := by
  constructor
  · decide
  · decide

/-- Value of stockFromReputation when the reputation container is present. -/
theorem stockFromReputation_some (item : Fragment) (rep : ReputationDiv)
    (hrep : item.game_reputation = some rep) :
    stockFromReputation item =
      (match findStock rep.text.data with
       | some n => n
       | none =>
         match rep.bold with
         | some b => if pyIsDigit (pystrip b) then pyInt (pystrip b) else 0
         | none => 0) := by
  unfold stockFromReputation
  rw [hrep]

/-- Claim C6 amended: stock resolution tries the labeled regex, then the bold
element, inside the reputation container, in that order; the legacy element
is consulted whenever the value resolved so far is 0 - both when the first
two steps failed and when one of them matched the value 0, so a successful
zero-valued match can be overridden - and the stock is 0 when everything
fails. -/
theorem C6_stock_fallback_amended (item : Fragment) :
    (∀ rep n, item.game_reputation = some rep → findStock rep.text.data = some n → 0 < n →
      resolveStock item = n) ∧
    (∀ rep b, item.game_reputation = some rep → findStock rep.text.data = none →
      rep.bold = some b → pyIsDigit (pystrip b) = true → 0 < pyInt (pystrip b) →
      resolveStock item = pyInt (pystrip b)) ∧
    (∀ t, stockFromReputation item = 0 → item.kucun_span = some t →
      pyIsDigit (pystrip t) = true → resolveStock item = pyInt (pystrip t)) ∧
    (stockFromReputation item = 0 →
      (∀ t, item.kucun_span = some t → pyIsDigit (pystrip t) = false) →
      resolveStock item = 0) := by
  refine ⟨?_, ?_, ?_, ?_⟩
  · intro rep n hrep hfind hpos
    have hs : stockFromReputation item = n := by
      rw [stockFromReputation_some item rep hrep, hfind]
    simp only [resolveStock, hs]
    rw [if_neg (by omega)]
  · intro rep b hrep hfind hbold hdig hpos
    have hs : stockFromReputation item = pyInt (pystrip b) := by
      rw [stockFromReputation_some item rep hrep, hfind, hbold]
      show (if pyIsDigit (pystrip b) = true then pyInt (pystrip b) else 0) = pyInt (pystrip b)
      rw [if_pos hdig]
    simp only [resolveStock, hs]
    rw [if_neg (by omega)]
  · intro t h0 hk hd
    simp only [resolveStock, h0, hk]
    simp [hd]
  · intro h0 hfail
    cases hk : item.kucun_span with
    | none =>
      simp only [resolveStock, h0, hk]
      simp
    | some t =>
      have hd := hfail t hk
      simp only [resolveStock, h0, hk]
      simp [hd]

/-- Witness for C6 amended at a fragment whose reputation text carries the
labeled stock value 5. -/
theorem C6_witness : resolveStock fragStockLabel = 5 :=
  (C6_stock_fallback_amended fragStockLabel).1
    ⟨"库存： 5", none, 0, 0, 0⟩ 5 rfl (by decide) (by decide)

/-- Value of the raw scraped price of the zero-quantity test fragment. -/
theorem rawPrice_fragQuantityZero : rawPrice fragQuantityZero = 10 := by
  have h2 : parseFloatAux
      (pystrip (String.mk ("10".data.filter (fun c => c.isDigit || c = '.')))).data =
      some ⟨false, 10, 0, 0, false, 0⟩ := by decide
  simp only [rawPrice, fragQuantityZero, parsePrice, parseFloat, h2, Option.map_some']
  norm_num [floatPartsVal]

/-- Counterexample to C1 as stated: this fragment's title contains the
bundling marker and its first integer before the marker is 0, so the computed
bundle quantity is 0, not at least 1, and the final price is the raw price 10
unchanged rather than the raw price divided by the quantity. -/
theorem C1_counterexample :
    containsChar (from_html_element fragQuantityZero "https://www.dd373.com").title '=' = true ∧
    bundleQuantity (from_html_element fragQuantityZero "https://www.dd373.com").title = 0 ∧
    (from_html_element fragQuantityZero "https://www.dd373.com").price = 10 := by
  refine ⟨by decide, by decide, ?_⟩
  rw [from_html_price]
  have h1 : bundleQuantity (extractTitle fragQuantityZero) = 0 := by decide
  simp only [finalPrice, h1]
  rw [if_neg (by omega)]
  exact rawPrice_fragQuantityZero

/-- Claim C1 amended: the extracted stock is the bundle quantity (first
integer of the title before the first equals sign, 1 when the title has no
marker or no digit before it) times the raw scraped stock; when the quantity
is at least 1 the extracted price is the raw scraped price divided by the
quantity, but when the first integer is 0 the quantity is 0 and the price
passes through unchanged; titles without the marker pass both through. -/
theorem C1_quantity_normalization_amended (item : Fragment) (domain : String) :
    (from_html_element item domain).stock =
        bundleQuantity (extractTitle item) * resolveStock item ∧
    (1 ≤ bundleQuantity (extractTitle item) →
      (from_html_element item domain).price =
        rawPrice item / (bundleQuantity (extractTitle item) : ℚ)) ∧
    (bundleQuantity (extractTitle item) = 0 →
      (from_html_element item domain).price = rawPrice item) ∧
    (containsChar (extractTitle item) '=' = false →
      bundleQuantity (extractTitle item) = 1 ∧
      (from_html_element item domain).stock = resolveStock item ∧
      (from_html_element item domain).price = rawPrice item) := by
  refine ⟨?_, ?_, ?_, ?_⟩
  · rw [from_html_stock]
    exact finalStock_eq item
  · intro hq
    rw [from_html_price]
    simp only [finalPrice]
    rw [if_pos (by omega)]
  · intro hq
    rw [from_html_price]
    simp only [finalPrice, hq]
    rw [if_neg (by omega)]
  · intro hc
    have hq : bundleQuantity (extractTitle item) = 1 := by
      unfold bundleQuantity
      rw [hc]
      simp
    refine ⟨hq, ?_, ?_⟩
    · rw [from_html_stock, finalStock_eq, hq, one_mul]
    · rw [from_html_price]
      simp only [finalPrice, hq]
      rw [if_pos (by omega)]
      norm_num

/-- Witness for C1 amended at a title with bundle quantity 2: the price is
the raw price divided by the quantity. -/
theorem C1_witness :
    (from_html_element fragQuantityTwo "https://www.dd373.com").price =
      rawPrice fragQuantityTwo / ((bundleQuantity (extractTitle fragQuantityTwo)) : ℚ) :=
  (C1_quantity_normalization_amended fragQuantityTwo "https://www.dd373.com").2.1 (by decide)

/-- Value of parseFloat from the value of the syntactic stage. -/
theorem parseFloat_eval (s : String) (p : FloatParts)
    (h : parseFloatAux (pystrip s).data = some p) :
    parseFloat s = some (floatPartsVal p) := by
  unfold parseFloat
  rw [h]
  rfl

/-- The successful result of the ranking step is the sorted input filtered. -/
theorem filter_valid_some (l : List DD373Product) (fp : FilterParams)
    (res : List DD373Product) (h : filter_valid_offer_item l fp = some res) :
    res = (l.insertionSort sortRel).filter (fun o => fp.apply o) := by
  unfold filter_valid_offer_item at h
  split at h
  · exact absurd h (by simp)
  · simp only [Option.some.injEq] at h
    exact h.symm

/-- The selector's value when the ranking step returns no offer. -/
theorem get_min_nil (l : List DD373Product) (fp : FilterParams)
    (h : filter_valid_offer_item l fp = some []) :
    get_dd_min_price l fp = some none := by
  unfold get_dd_min_price
  rw [h]

/-- The selector's value when the ranking step returns at least one offer. -/
theorem get_min_cons (l : List DD373Product) (fp : FilterParams)
    (x : DD373Product) (xs : List DD373Product)
    (h : filter_valid_offer_item l fp = some (x :: xs)) :
    get_dd_min_price l fp =
      some (some ((pyminBy (fun p => p.price) x xs).price,
        (pyminBy (fun p => p.price) x xs).title,
        (pyminBy (fun p => p.price) x xs).stock)) := by
  unfold get_dd_min_price
  rw [h]

/-- Python min with a key keeps the first minimum: the seed-and-list splits
around the returned element, with strictly larger keys before it and
larger-or-equal keys after it. -/
theorem pyminBy_split (f : DD373Product → ℚ) :
    ∀ (xs : List DD373Product) (x : DD373Product),
      ∃ l1 l2, x :: xs = l1 ++ pyminBy f x xs :: l2 ∧
        f (pyminBy f x xs) ≤ f x ∧
        (∀ y ∈ l1, f (pyminBy f x xs) < f y) ∧
        (∀ y ∈ l2, f (pyminBy f x xs) ≤ f y) := by
  intro xs
  induction xs with
  | nil =>
    intro x
    refine ⟨[], [], rfl, le_refl _, ?_, ?_⟩
    · intro y hy
      exact absurd hy (List.not_mem_nil y)
    · intro y hy
      exact absurd hy (List.not_mem_nil y)
  | cons y ys ih =>
    intro x
    have hstep : pyminBy f x (y :: ys) = pyminBy f (if f y < f x then y else x) ys := rfl
    by_cases hyx : f y < f x
    · rw [hstep, if_pos hyx]
      obtain ⟨l1, l2, heq, hseed, hstrict, hafter⟩ := ih y
      refine ⟨x :: l1, l2, ?_, ?_, ?_, hafter⟩
      · rw [List.cons_append, ← heq]
      · exact le_of_lt (lt_of_le_of_lt hseed hyx)
      · intro z hz
        rcases List.mem_cons.mp hz with hzx | hzl
        · rw [hzx]
          exact lt_of_le_of_lt hseed hyx
        · exact hstrict z hzl
    · rw [hstep, if_neg hyx]
      obtain ⟨l1, l2, heq, hseed, hstrict, hafter⟩ := ih x
      have hxy : f x ≤ f y := le_of_not_lt hyx
      cases l1 with
      | nil =>
        rw [List.nil_append] at heq
        injection heq with h1 h2
        refine ⟨[], y :: l2, ?_, hseed, ?_, ?_⟩
        · rw [List.nil_append, ← h1, ← h2]
        · intro z hz
          exact absurd hz (List.not_mem_nil z)
        · intro z hz
          rcases List.mem_cons.mp hz with hzy | hzl
          · rw [hzy, ← h1]
            exact hxy
          · exact hafter z hzl
      | cons a l1' =>
        rw [List.cons_append] at heq
        injection heq with h1 h2
        have hma : f (pyminBy f x ys) < f x := by
          have h3 := hstrict a (List.mem_cons_self a l1')
          rw [← h1] at h3
          exact h3
        refine ⟨x :: y :: l1', l2, ?_, hseed, ?_, hafter⟩
        · rw [List.cons_append, List.cons_append, ← h2]
        · intro z hz
          rcases List.mem_cons.mp hz with hzx | hz2
          · rw [hzx]
            exact hma
          · rcases List.mem_cons.mp hz2 with hzy | hzl
            · rw [hzy]
              exact lt_of_lt_of_le hma hxy
            · exact hstrict z (List.mem_cons_of_mem a hzl)

/-- Counterexample to C2 as stated: on an exchange-rate string that contains
an equals sign followed by non-numeric text, the key computation raises (the
guard only tests for the equals sign, not for parsability), so the ranker
raises instead of defaulting the key to infinity. -/
theorem C2_counterexample :
    hasEq "1=abc元" = true ∧ ratekey "1=abc元" = none ∧
    filter_valid_offer_item [prodBadRate] fpZero = none := by
  refine ⟨by decide, by decide, by decide⟩

/-- Claim C2 amended: the sort key of a record defaults to positive infinity
exactly when the exchange-rate string lacks an equals sign (in particular
when it is empty); when the guard holds, the key is the parsed value of the
text after the first equals sign with the currency unit removed and
whitespace stripped, and the computation raises - rather than defaulting -
when that text is non-numeric; on a successful call the records are sorted
ascending by this key before filtering. -/
theorem C2_sort_key_amended (s : String) :
    (containsChar s '=' = false → ratekey s = some ⊤) ∧
    (∀ v : ℚ, hasEq s = true → parseAfterEq s = some v →
      ratekey s = some (v : WithTop ℚ)) ∧
    (hasEq s = true → parseAfterEq s = none → ratekey s = none) ∧
    (∀ (l : List DD373Product) (fp : FilterParams) (res : List DD373Product),
      filter_valid_offer_item l fp = some res →
      ∃ l2 : List DD373Product, l2.Perm l ∧ List.Sorted sortRel l2 ∧
        res = l2.filter (fun o => fp.apply o)) := by
  refine ⟨?_, ?_, ?_, ?_⟩
  · intro hc
    unfold ratekey hasEq
    rw [hc]
    simp
  · intro v hq hp
    simp [ratekey, hq, hp]
  · intro hq hp
    simp [ratekey, hq, hp]
  · intro l fp res h
    exact ⟨l.insertionSort sortRel, List.perm_insertionSort sortRel l,
      List.sorted_insertionSort sortRel l, filter_valid_some l fp res h⟩

/-- Witness for C2 amended: the spec's example string parses to the key
57/1000, and the empty string gets the infinite key. -/
theorem C2_witness :
    ratekey "1=0.057元" = some ((57 / 1000 : ℚ) : WithTop ℚ) ∧
    ratekey "" = some ⊤ := by
  constructor
  · have hp : parseAfterEq "1=0.057元" = some (57 / 1000 : ℚ) := by
      unfold parseAfterEq
      rw [parseFloat_eval _ ⟨false, 0, 57, 3, false, 0⟩ (by decide)]
      norm_num [floatPartsVal]
    exact (C2_sort_key_amended "1=0.057元").2.1 (57 / 1000) (by decide) hp
  · exact (C2_sort_key_amended "").1 (by decide)

/-- Counterexample to C3 as stated: a list containing one record that passes
the filter and another whose sort key computation raises makes the selector
raise instead of returning the minimum-price survivor. -/
theorem C3_counterexample :
    FilterParams.apply fpZero prodPass = true ∧
    get_dd_min_price [prodPass, prodBadRate] fpZero = none := by
  refine ⟨by decide, by decide⟩

/-- Claim C3 amended: whenever every sort key computes without raising and at
least one record passes the filter, the selector returns the price, title and
stock of a record of the filtered sorted sequence whose price is minimal,
every earlier survivor having strictly greater price (so a price tie goes to
the survivor appearing first after the ascending key sort). -/
theorem C3_selection_rule_amended (l : List DD373Product) (fp : FilterParams)
    (res : List DD373Product) (hfv : filter_valid_offer_item l fp = some res)
    (hpass : ∃ x ∈ l, fp.apply x = true) :
    ∃ l1 l2 w, res = l1 ++ w :: l2 ∧
      get_dd_min_price l fp = some (some (w.price, w.title, w.stock)) ∧
      (∀ y ∈ l1, w.price < y.price) ∧
      (∀ y ∈ l2, w.price ≤ y.price) := by
  obtain ⟨x, hxl, hxap⟩ := hpass
  have hres : res = (l.insertionSort sortRel).filter (fun o => fp.apply o) :=
    filter_valid_some l fp res hfv
  have hxres : x ∈ res := by
    rw [hres]
    exact List.mem_filter.mpr ⟨(List.mem_insertionSort sortRel).mpr hxl, hxap⟩
  cases hres2 : res with
  | nil =>
    rw [hres2] at hxres
    exact absurd hxres (List.not_mem_nil x)
  | cons r rs =>
    obtain ⟨l1, l2, heq, _, hstrict, hafter⟩ := pyminBy_split (fun p => p.price) rs r
    refine ⟨l1, l2, pyminBy (fun p => p.price) r rs, heq, ?_, hstrict, hafter⟩
    rw [hres2] at hfv
    exact get_min_cons l fp r rs hfv

/-- Witness for C3 amended on a singleton passing list: the selector returns
that record's data. -/
theorem C3_witness :
    ∃ l1 l2 w, [prodPass] = l1 ++ w :: l2 ∧
      get_dd_min_price [prodPass] fpZero = some (some (w.price, w.title, w.stock)) ∧
      (∀ y ∈ l1, w.price < y.price) ∧
      (∀ y ∈ l2, w.price ≤ y.price) :=
  C3_selection_rule_amended [prodPass] fpZero [prodPass] (by decide)
    ⟨prodPass, by decide, by decide⟩

/-- Counterexample to C7 as stated: a list whose only record fails the filter
but has a raising sort key makes the selector raise, not return the absent
result. -/
theorem C7_counterexample :
    FilterParams.apply fpStock1 prodBadRate = false ∧
    get_dd_min_price [prodBadRate] fpStock1 = none ∧
    get_dd_min_price [prodBadRate] fpStock1 ≠ some none := by
  refine ⟨by decide, by decide, by decide⟩

/-- Claim C7 amended: whenever every sort key computes without raising, the
selector returns the absent result exactly when no input record passes the
filter; on the empty input it returns the absent result. -/
theorem C7_no_eligible_amended (l : List DD373Product) (fp : FilterParams)
    (res : List DD373Product) (hfv : filter_valid_offer_item l fp = some res) :
    (get_dd_min_price l fp = some none ↔ ∀ x ∈ l, fp.apply x = false) ∧
    get_dd_min_price [] fp = some none := by
  have hres := filter_valid_some l fp res hfv
  refine ⟨⟨?_, ?_⟩, ?_⟩
  · intro hnone
    cases hres2 : res with
    | nil =>
      rw [hres2] at hres
      have hfn := List.filter_eq_nil_iff.mp hres.symm
      intro x hxl
      have hx := hfn x ((List.mem_insertionSort sortRel).mpr hxl)
      exact Bool.eq_false_iff.mpr hx
    | cons r rs =>
      rw [hres2] at hfv
      rw [get_min_cons l fp r rs hfv] at hnone
      simp at hnone
  · intro hall
    have hres0 : res = [] := by
      rw [hres]
      apply List.filter_eq_nil_iff.mpr
      intro a ha
      have hal : a ∈ l := (List.mem_insertionSort sortRel).mp ha
      simp [hall a hal]
    rw [hres0] at hfv
    exact get_min_nil l fp hfv
  · rfl

/-- Witness for C7 amended: a singleton list whose record fails the stock
threshold gives the absent result, and so does the empty list. -/
theorem C7_witness :
    get_dd_min_price [prodPass] fpStock1 = some none ∧
    get_dd_min_price [] fpStock1 = some none := by
  have h := C7_no_eligible_amended [prodPass] fpStock1 [] (by decide)
  exact ⟨h.1.mpr (by decide), h.2⟩
